import Mathlib

/-!
# Verification of the offer-extraction-and-edit workflow

Shallow embedding of `src/pulse_id_interface.py` (an interactive offer
creator: an LLM call extracts a structured offer record from free text,
the user edits a working copy, a presenter renders it).

Modelling conventions:
* Python values are `PyVal`; `list` and `dict` objects live in an explicit
  `Heap` and are referred to by address, so shallow copies (`dict.copy()`)
  share nested mutable objects exactly as in CPython.
* Exceptions are modelled as a `Bool` "raised" flag (or `Option`/result
  types); Streamlit session state is the `SessionState` structure, and a
  script run that raises keeps the session-state assignments already made,
  as Streamlit does.
* `datetime.now() + timedelta(days=n)` and `strftime('%b %d, %Y')` are
  modelled by a proleptic-Gregorian `Date` with day stepping.
* `json.loads` is modelled by a recursive-descent parser covering the JSON
  shapes of the offer schema (null, booleans, integers, strings, arrays,
  one level of object nesting); floats and `\u` escapes are out of scope.
-/

set_option autoImplicit false

/-- A Python value: atoms are immediate, `list`/`dict` objects are heap
addresses (so aliasing and in-place mutation are observable). -/
inductive PyVal : Type where
  | pyNone
  | pyBool (b : Bool)
  | pyInt (n : Int)
  | pyStr (s : String)
  | pyList (addr : Nat)
  | pyDict (addr : Nat)
  deriving DecidableEq, Repr

open PyVal

/-- Entries of a Python dict, in insertion order. -/
abbrev DictEntries := List (String × PyVal)

/-- The object heap: list objects and dict objects, addressed by index. -/
structure Heap where
  lists : List (List PyVal)
  dicts : List DictEntries
  deriving DecidableEq, Repr

/-- The empty heap. -/
def Heap.empty : Heap := ⟨[], []⟩

/-- Contents of the list object at `a` (dangling addresses read as `[]`). -/
def heapList (h : Heap) (a : Nat) : List PyVal := h.lists.getD a []

/-- Overwrite the list object at `a`. -/
def heapListSet (h : Heap) (a : Nat) (xs : List PyVal) : Heap :=
  { h with lists := h.lists.set a xs }

/-- Allocate a fresh list object; returns the new heap and its address. -/
def allocList (h : Heap) (xs : List PyVal) : Heap × Nat :=
  ({ h with lists := h.lists ++ [xs] }, h.lists.length)

/-- Entries of the dict object at `a`. -/
def heapDict (h : Heap) (a : Nat) : DictEntries := h.dicts.getD a []

/-- Allocate a fresh dict object; returns the new heap and its address. -/
def allocDict (h : Heap) (es : DictEntries) : Heap × Nat :=
  ({ h with dicts := h.dicts ++ [es] }, h.dicts.length)

/-- Association-list lookup: `d[k]` / `d.get(k)` on the entry list. -/
def entGet (es : DictEntries) (k : String) : Option PyVal :=
  match es with
  | [] => none
  | (k', v) :: t => if k' = k then some v else entGet t k

/-- `d.get(k, default)`. -/
def entGetD (es : DictEntries) (k : String) (dflt : PyVal) : PyVal :=
  (entGet es k).getD dflt

/-- `d[k] = v`: update in place, preserving insertion order (a fresh key is
appended), exactly as a CPython dict does. -/
def entSet (es : DictEntries) (k : String) (v : PyVal) : DictEntries :=
  match es with
  | [] => [(k, v)]
  | (k', v') :: t => if k' = k then (k, v) :: t else (k', v') :: entSet t k v

/-- `k in d`. -/
def entHasKey (es : DictEntries) (k : String) : Bool :=
  (entGet es k).isSome

/-- `st.session_state.X[k] = v` on the dict object at address `a`. -/
def dictUpdate (h : Heap) (a : Nat) (k : String) (v : PyVal) : Heap :=
  { h with dicts := h.dicts.set a (entSet (heapDict h a) k v) }

/-- Python truthiness: `None`, `False`, `0`, `""` and empty containers are
falsy. -/
def pyTruthy (h : Heap) : PyVal → Bool
  | pyNone => false
  | pyBool b => b
  | pyInt n => n != 0
  | pyStr s => s != ""
  | pyList a => (heapList h a).length != 0
  | pyDict a => (heapDict h a).length != 0

/-- `repr()` of an atom as it appears inside a container (strings quoted);
nested containers are abbreviated — the offer schema never nests them. -/
def atomRepr : PyVal → String
  | pyNone => "None"
  | pyBool b => if b then "True" else "False"
  | pyInt n => toString n
  | pyStr s => "'" ++ s ++ "'"
  | pyList _ => "[...]"
  | pyDict _ => "\x7b...\x7d"

/-- `str()` of a value, as used by f-string interpolation. -/
def strOf (h : Heap) : PyVal → String
  | pyNone => "None"
  | pyBool b => if b then "True" else "False"
  | pyInt n => toString n
  | pyStr s => s
  | pyList a => "[" ++ String.intercalate ", " ((heapList h a).map atomRepr) ++ "]"
  | pyDict a =>
      "\x7b" ++ String.intercalate ", "
        ((heapDict h a).map (fun kv => "'" ++ kv.1 ++ "': " ++ atomRepr kv.2)) ++ "\x7d"

/-- `format_currency` (source line 22): `f"\\${amount}"`, i.e. a literal
backslash and dollar sign — escaped for Markdown — prefixed to `str(amount)`. -/
def format_currency (h : Heap) (amount : PyVal) : String :=
  "\\$" ++ strOf h amount

/-- Python whitespace for `str.strip()`. -/
def pyIsSpace (c : Char) : Bool :=
  [' ', '\t', '\n', '\r', '\x0b', '\x0c'].contains c

/-- `str.strip()`: remove leading and trailing whitespace. -/
def pyStrip (s : String) : String :=
  String.mk (((s.toList.dropWhile pyIsSpace).reverse.dropWhile pyIsSpace).reverse)

/-- One step of `str.title()`: an alphabetic character is uppercased when the
previous character was not alphabetic, lowercased otherwise. -/
def titleStep (acc : List Char × Bool) (c : Char) : List Char × Bool :=
  if c.isAlpha then ((if acc.2 then c.toLower else c.toUpper) :: acc.1, true)
  else (c :: acc.1, false)

/-- `str.title()` (used for the audience label). -/
def pyTitle (s : String) : String :=
  String.mk ((s.toList.foldl titleStep ([], false)).1.reverse)

/-- A calendar date (proleptic Gregorian, as CPython's `datetime.date`). -/
structure Date where
  year : Nat
  month : Nat
  day : Nat
  deriving DecidableEq, Repr

/-- Gregorian leap-year rule. -/
def isLeap (y : Nat) : Bool := y % 4 == 0 && (y % 100 != 0 || y % 400 == 0)

/-- Number of days in a month. -/
def daysInMonth (y m : Nat) : Nat :=
  if m == 2 then (if isLeap y then 29 else 28)
  else if m == 4 || m == 6 || m == 9 || m == 11 then 30
  else 31

/-- The following calendar day. -/
def nextDay (d : Date) : Date :=
  if d.day < daysInMonth d.year d.month then ⟨d.year, d.month, d.day + 1⟩
  else if d.month < 12 then ⟨d.year, d.month + 1, 1⟩
  else ⟨d.year + 1, 1, 1⟩

/-- The preceding calendar day. -/
def prevDay (d : Date) : Date :=
  if 1 < d.day then ⟨d.year, d.month, d.day - 1⟩
  else if 1 < d.month then ⟨d.year, d.month - 1, daysInMonth d.year (d.month - 1)⟩
  else ⟨d.year - 1, 12, 31⟩

/-- `date + timedelta(days := n)`. -/
def dateAdd (d : Date) (n : Int) : Date :=
  if 0 ≤ n then nextDay^[n.toNat] d else prevDay^[(-n).toNat] d

/-- Zero-padded two-digit field, as `%d`. -/
def pad2 (n : Nat) : String := if n < 10 then "0" ++ toString n else toString n

/-- `%b`: abbreviated month name. -/
def monthAbbrev (m : Nat) : String :=
  ["Jan", "Feb", "Mar", "Apr", "May", "Jun",
   "Jul", "Aug", "Sep", "Oct", "Nov", "Dec"].getD (m - 1) "???"

/-- `strftime('%b %d, %Y')` (source line 176). -/
def strftimeBDY (d : Date) : String :=
  monthAbbrev d.month ++ " " ++ pad2 d.day ++ ", " ++ toString d.year

example : pyTitle "all customers" = "All Customers" := by decide
example : format_currency Heap.empty (pyInt 500) = "\\$500" := by decide
example : strftimeBDY (dateAdd ⟨2024, 1, 1⟩ 7) = "Jan 08, 2024" := by decide

/-! ## Fence stripping

Source line 111:
`content = re.sub(r'(three backticks)json\n?(.*?)\n?(three backticks)', r'\1', content, flags=re.DOTALL)`.
The lazy body `(.*?)` grows one character at a time; at each candidate end
the greedy trailing `\n?` is tried first with a newline, then empty,
followed by the closing three backticks. `re.sub` then resumes scanning
after the end of the match (replacements are not rescanned). -/

/-- Three backticks, the fence delimiter. -/
def bt3 : List Char := ['`', '`', '`']

/-- The literal head of the fence pattern. -/
def fenceHead : List Char := ['`', '`', '`', 'j', 's', 'o', 'n']

/-- Scan for the lazy body's end: the first position where the greedy
`\n?` + three backticks of the pattern's tail match. Returns the body and
the text after the closing fence. -/
def findTerm : List Char → Option (List Char × List Char)
  | [] => none
  | c :: t =>
    if c = '\n' ∧ t.take 3 = bt3 then some ([], t.drop 3)
    else if (c :: t).take 3 = bt3 then some ([], (c :: t).drop 3)
    else
      match findTerm t with
      | some (b, r) => some (c :: b, r)
      | none => none

/-- Try the whole fence pattern at the current position: literal head, then
greedy leading `\n?` (with backtracking), then the lazy body search.
Returns the body (the replacement, capture group 1) and the remainder. -/
def matchFenceAt (s : List Char) : Option (List Char × List Char) :=
  if s.take 7 = fenceHead then
    let s1 := s.drop 7
    match s1 with
    | '\n' :: rest =>
      match findTerm rest with
      | some br => some br
      | none => findTerm s1
    | _ => findTerm s1
  else none

/-- `re.sub` scanning loop, fuelled by the input length: at each position
either replace a match (and resume after it) or emit one character.  The
fuel is only a termination device — every step consumes at least one input
character, so `fuel = length` never runs out. -/
def subFenceFuel : Nat → List Char → List Char
  | 0, s => s
  | fuel + 1, s =>
    match matchFenceAt s with
    | some (b, r) => b ++ subFenceFuel fuel r
    | none =>
      match s with
      | [] => []
      | c :: t => c :: subFenceFuel fuel t

/-- The fence-stripping pass of `extract_offer_parameters` on `List Char`. -/
def stripFenceL (s : List Char) : List Char := subFenceFuel s.length s

/-- The fence-stripping pass on `String`. -/
def strip_code_fence (s : String) : String := String.mk (stripFenceL s.toList)

/-- Bodies containing no run of three consecutive backticks — the
canonical shape of a JSON payload inside a fence. -/
def noTriple : List Char → Bool
  | [] => true
  | c :: t => if (c :: t).take 3 = bt3 then false else noTriple t

/-- The canonical fenced form the extraction prompt elicits: the fence
head, a newline, the body, a newline and the closing fence. -/
def fenceWrap (b : List Char) : List Char :=
  fenceHead ++ '\n' :: b ++ '\n' :: bt3

example : strip_code_fence "```json\n\x7b\"a\": 1\x7d\n```" = "\x7b\"a\": 1\x7d" := by decide
example : strip_code_fence "not json" = "not json" := by decide
example : strip_code_fence "```json```" = "" := by decide

/-! ## `json.loads`

A recursive-descent parser covering the JSON value shapes of the offer
schema: `null`, booleans, integers, strings (with the single-character
escapes), arrays and objects.  Floats and `\u` escapes are outside the
modelled scope (the schema's numbers are integers), as is object nesting
beyond what `PyVal` addresses reach.  Arrays and objects are allocated on
the heap, innermost first, as CPython builds them. -/

/-- JSON whitespace per RFC 8259. -/
def jsonWs (c : Char) : Bool := [' ', '\n', '\t', '\r'].contains c

/-- Skip JSON whitespace. -/
def skipWs (s : List Char) : List Char := s.dropWhile jsonWs

/-- The single-character JSON escapes (the `\u` form is outside the
modelled scope — the offer schema's strings never need it). -/
def escTable : List (Char × Char) :=
  [('"', '"'), ('\\', '\\'), ('/', '/'), ('n', '\n'), ('t', '\t'),
   ('r', '\r'), ('b', '\x08'), ('f', '\x0c')]

/-- Translate a JSON escape character through the table. -/
def escChar (e : Char) : Option Char := escTable.lookup e

/-- Parse a JSON string body after the opening quote. -/
def parseStringBody (acc : List Char) : List Char → Option (String × List Char)
  | [] => none
  | c :: t =>
    if c = '"' then some (String.mk acc.reverse, t)
    else if c = '\\' then
      match t with
      | [] => none
      | e :: t2 =>
        match escChar e with
        | some d => parseStringBody (d :: acc) t2
        | none => none
    else parseStringBody (c :: acc) t

/-- Split off a maximal run of decimal digits. -/
def splitDigits (s : List Char) : List Char × List Char := s.span Char.isDigit

/-- Numeric value of a digit run. -/
def digitsVal (ds : List Char) : Nat :=
  ds.foldl (fun a c => 10 * a + (c.toNat - 48)) 0

/-- Parse a JSON integer literal (optional minus, no leading zeros; a
fraction or exponent marks a float, outside the modelled scope). -/
def parseIntTok (s : List Char) : Option (Int × List Char) :=
  let (neg, s1) := match s with
    | '-' :: t => (true, t)
    | _ => (false, s)
  match splitDigits s1 with
  | ([], _) => none
  | (ds, r) =>
    if 1 < ds.length ∧ ds.headD '0' = '0' then none
    else if r.take 1 = ['.'] ∨ r.take 1 = ['e'] ∨ r.take 1 = ['E'] then none
    else some (if neg then -(digitsVal ds : Int) else (digitsVal ds : Int), r)

/-- Python dict construction from parsed members: later duplicate keys
overwrite in place, keeping the first key's position. -/
def mkEntries (ms : List (String × PyVal)) : DictEntries :=
  ms.foldl (fun es kv => entSet es kv.1 kv.2) []

mutual

/-- Parse one JSON value; returns the value, the heap extended with any
containers it allocated, and the unconsumed input. -/
def parseJVal : Nat → Heap → List Char → Option (PyVal × Heap × List Char)
  | 0, _, _ => none
  | fuel + 1, h, s =>
    match skipWs s with
    | [] => none
    | c :: t =>
      if c = 'n' then
        if t.take 3 = "ull".toList then some (pyNone, h, t.drop 3) else none
      else if c = 't' then
        if t.take 3 = "rue".toList then some (pyBool true, h, t.drop 3) else none
      else if c = 'f' then
        if t.take 4 = "alse".toList then some (pyBool false, h, t.drop 4) else none
      else if c = '"' then
        match parseStringBody [] t with
        | some (str, r) => some (pyStr str, h, r)
        | none => none
      else if c = '[' then
        match skipWs t with
        | ']' :: r =>
          let (h1, a) := allocList h []
          some (pyList a, h1, r)
        | _ =>
          match parseItems fuel h t with
          | some (xs, h1, r) =>
            let (h2, a) := allocList h1 xs
            some (pyList a, h2, r)
          | none => none
      else if c = '\x7b' then
        match skipWs t with
        | '\x7d' :: r =>
          let (h1, a) := allocDict h []
          some (pyDict a, h1, r)
        | _ =>
          match parseMembers fuel h t with
          | some (ms, h1, r) =>
            let (h2, a) := allocDict h1 (mkEntries ms)
            some (pyDict a, h2, r)
          | none => none
      else
        match parseIntTok (c :: t) with
        | some (n, r) => some (pyInt n, h, r)
        | none => none

/-- Parse comma-separated array items up to the closing bracket. -/
def parseItems : Nat → Heap → List Char → Option (List PyVal × Heap × List Char)
  | 0, _, _ => none
  | fuel + 1, h, s =>
    match parseJVal fuel h s with
    | none => none
    | some (v, h1, r) =>
      match skipWs r with
      | ',' :: r2 =>
        match parseItems fuel h1 r2 with
        | some (xs, h2, r3) => some (v :: xs, h2, r3)
        | none => none
      | ']' :: r2 => some ([v], h1, r2)
      | _ => none

/-- Parse object members up to the closing brace. -/
def parseMembers : Nat → Heap → List Char → Option (List (String × PyVal) × Heap × List Char)
  | 0, _, _ => none
  | fuel + 1, h, s =>
    match skipWs s with
    | '"' :: t =>
      match parseStringBody [] t with
      | none => none
      | some (k, r) =>
        match skipWs r with
        | ':' :: r2 =>
          match parseJVal fuel h r2 with
          | none => none
          | some (v, h1, r3) =>
            match skipWs r3 with
            | ',' :: r4 =>
              match parseMembers fuel h1 r4 with
              | some (ms, h2, r5) => some ((k, v) :: ms, h2, r5)
              | none => none
            | '\x7d' :: r4 => some ([(k, v)], h1, r4)
            | _ => none
        | _ => none
    | _ => none

end

/-- `json.loads`: parse a complete document; trailing non-whitespace is the
"Extra data" error.  The fuel bounds recursion depth and is ample for any
input of the given length. -/
def json_loads (h : Heap) (s : String) : Option (PyVal × Heap) :=
  match parseJVal (2 * s.length + 8) h s.toList with
  | some (v, h1, r) => if skipWs r = [] then some (v, h1) else none
  | none => none

example : json_loads Heap.empty "null" = some (pyNone, Heap.empty) := by decide
example : json_loads Heap.empty "[1, 2]" = some (pyList 0, ⟨[[pyInt 1, pyInt 2]], []⟩) := by decide
example : json_loads Heap.empty "not json" = none := by decide
example : json_loads Heap.empty "01" = none := by decide
example :
    json_loads Heap.empty "\x7b\"value\": 20, \"conditions\": []\x7d"
      = some (pyDict 0, ⟨[[]], [[("value", pyInt 20), ("conditions", pyList 0)]]⟩) := by
  decide

/-! ## Extraction and the session-state workflow -/

/-- Result of `extract_offer_parameters`: a parsed value, a surfaced
failure (`st.error` message then `return None`), or the silent `return
None` of line 113 when the completion response is empty. -/
inductive ExtractResult where
  | success (v : PyVal) (h : Heap)
  | failure (msg : String)
  | empty
  deriving DecidableEq, Repr

/-- `extract_offer_parameters` (source lines 83-116), from the model
response onward: `response.choices[0].message.content.strip()`, the fence
`re.sub`, then `json.loads`; the `except` branch surfaces
`st.error(f"Extraction error: ...")` and returns `None`.  The network call
itself is the external collaborator; `response = none` models a falsy
response or empty `choices` (line 113). -/
def extract_offer_parameters (h : Heap) (response : Option String) : ExtractResult :=
  match response with
  | none => ExtractResult.empty
  | some raw =>
    match json_loads h (strip_code_fence (pyStrip raw)) with
    | some (v, h1) => ExtractResult.success v h1
    | none => ExtractResult.failure "Extraction error: malformed model response"

/-- The `.copy()` method: dicts and lists copy shallowly (a fresh object
whose entries still hold the old addresses); any other receiver — in
particular `None` — has no `.copy` and raises `AttributeError`, modelled
as `none`. -/
def pyCopy (h : Heap) : PyVal → Option (PyVal × Heap)
  | pyDict a =>
    let (h1, a1) := allocDict h (heapDict h a)
    some (pyDict a1, h1)
  | pyList a =>
    let (h1, a1) := allocList h (heapList h a)
    some (pyList a1, h1)
  | _ => none

/-- The Streamlit session state of the script (lines 9-19); the audio
buffer is outside the modelled fragment. -/
structure SessionState where
  offer_params : Option PyVal
  adjusted_params : Option PyVal
  offer_created : Bool
  transcribed_text : String
  deriving DecidableEq, Repr

/-- The "Generate Offer" click (lines 189-194):
`offer_params = extract_offer_parameters(...)` then
`adjusted_params = offer_params.copy()`.  The returned flag records
whether the run raised; assignments made before the raise persist in
session state (Streamlit keeps session state across a traceback).  When
extraction returns `None`, `offer_params` is overwritten with `None` and
`None.copy()` raises `AttributeError` before `adjusted_params` or
`offer_created` are touched. -/
def generate_offer_step (resp : Option String) (h : Heap) (st : SessionState) :
    Heap × SessionState × Bool :=
  match extract_offer_parameters h resp with
  | .success v h1 =>
    match pyCopy h1 v with
    | some (c, h2) =>
      (h2,
       { st with offer_params := some v, adjusted_params := some c, offer_created := true },
       false)
    | none => (h1, { st with offer_params := some v }, true)
  | .failure _ => (h, { st with offer_params := none }, true)
  | .empty => (h, { st with offer_params := none }, true)

/-- Python's `in` on a container: key membership for dicts, `==` element
membership for lists, substring for strings; `in` on a non-container
raises `TypeError` (`none`). -/
def pyContains (h : Heap) (container needle : PyVal) : Option Bool :=
  match container with
  | pyDict a =>
    match needle with
    | pyStr k => some (entHasKey (heapDict h a) k)
    | _ => some false
  | pyList a => some ((heapList h a).contains needle)
  | pyStr s =>
    match needle with
    | pyStr k => some (1 < (s.splitOn k).length || k = "")
    | _ => none
  | _ => none

/-- The raw-parameters display block (lines 196-203): when `offer_params`
is truthy, take `params_display = offer_params.copy()`, overwrite the
copy's `min_spend` with the currency-formatted string, and hand the copy
to `st.json`.  Returns the (possibly extended) heap, the value passed to
`st.json` (`none` when the block is skipped), and whether the run
raised. -/
def raw_params_display (h : Heap) (st : SessionState) :
    Heap × Option PyVal × Bool :=
  let cur := st.offer_params.getD pyNone
  if pyTruthy h cur then
    match pyCopy h cur with
    | none => (h, none, true)
    | some (c, h1) =>
      match pyContains h1 c (pyStr "min_spend") with
      | none => (h1, none, true)
      | some true =>
        match c with
        | pyDict a =>
          let ms := entGetD (heapDict h1 a) "min_spend" pyNone
          (dictUpdate h1 a "min_spend" (pyStr (format_currency h1 ms)), some c, false)
        | _ => (h1, none, true)
      | some false => (h1, some c, false)
  else (h, none, false)

/-! ## The offer editor -/

/-- The selectbox options (line 128). -/
def offerTypeOptions : List PyVal :=
  [pyStr "cashback", pyStr "discount", pyStr "free_shipping"]

/-- `list.index(x)` (line 129): position of the first `==`-equal element;
`ValueError` (`none`) when the value is not in the list. -/
def listIndex (l : List PyVal) (x : PyVal) : Option Nat :=
  match l with
  | [] => none
  | y :: t => if y = x then some 0 else (listIndex t x).map (· + 1)

/-- The selectbox's default index (lines 129-131): the enum position of
the working copy's `offer_type`, with `"cashback"` substituted only when
the key is absent. -/
def offer_type_select_index (es : DictEntries) : Option Nat :=
  listIndex offerTypeOptions (entGetD es "offer_type" (pyStr "cashback"))

/-- Whether the editor renders the "Max Redemptions" numeric control: the
truthiness test of line 150 on the working copy's stored value. -/
def max_redemptions_control_shown (h : Heap) (es : DictEntries) : Bool :=
  pyTruthy h (entGetD es "max_redemptions" pyNone)

/-- Whether an optional stored value is unset in the Python sense: key
absent, or present holding `None`. -/
def unsetOpt : Option PyVal → Bool
  | none => true
  | some pyNone => true
  | some _ => false

/-- Whether the working copy's `max_redemptions` is unset (absent or
`null`), as opposed to holding a concrete value. -/
def max_redemptions_unset (es : DictEntries) : Bool :=
  unsetOpt (entGet es "max_redemptions")

/-- The values the editor's widgets return on one render (text box, the
selectbox choice among the three options, and the numeric inputs). -/
structure EditorInputs where
  offer_name : String
  offer_type_choice : Fin 3
  value : Int
  min_spend : Int
  duration_days : Int
  max_redemptions : Int
  deriving DecidableEq, Repr

/-- `offer_editor` (lines 119-155) acting on the working-copy dict object
at `a`: each widget's result is assigned back into the dict, in source
order.  Computing the selectbox default raises `ValueError` when the
stored `offer_type` is not in the options list; the raise aborts the
render (flag `true`) after the `offer_name` assignment of line 122 has
already been committed.  The `max_redemptions` input exists only under
the truthiness guard of line 150. -/
def offer_editor (inp : EditorInputs) (h : Heap) (a : Nat) : Heap × Bool :=
  let h1 := dictUpdate h a "offer_name" (pyStr inp.offer_name)
  match offer_type_select_index (heapDict h1 a) with
  | none => (h1, true)
  | some _ =>
    let h2 := dictUpdate h1 a "offer_type" (offerTypeOptions.getD inp.offer_type_choice.val pyNone)
    let h3 := dictUpdate h2 a "value" (pyInt inp.value)
    let h4 := dictUpdate h3 a "min_spend" (pyInt inp.min_spend)
    let h5 := dictUpdate h4 a "duration_days" (pyInt inp.duration_days)
    if max_redemptions_control_shown h5 (heapDict h5 a) then
      (dictUpdate h5 a "max_redemptions" (pyInt inp.max_redemptions), false)
    else (h5, false)

/-! ## The offer presenter -/

/-- The rendered summary of `display_offer` (lines 158-186), one field per
interpolated piece of the markdown block. -/
structure RenderedOffer where
  icon : String
  offer_name_text : String
  value_display : String
  offer_type_text : String
  min_spend_text : String
  valid_until : String
  audience_text : String
  conditions_shown : Option (List String)
  deriving DecidableEq, Repr

/-- Day count for `timedelta(days := ...)`: ints and bools are accepted
(a Python bool is an int); anything else raises `TypeError`. -/
def pyToInt : PyVal → Option Int
  | pyInt n => some n
  | pyBool b => some (if b then 1 else 0)
  | _ => none

/-- The audience line (line 177):
`params.get('audience', 'all customers').title()`; calling `.title()` on
a non-string raises `AttributeError`. -/
def audienceText (es : DictEntries) : Option String :=
  match entGetD es "audience" (pyStr "all customers") with
  | pyStr s => some (pyTitle s)
  | _ => none

/-- The conditions section (lines 180-183): rendered only when
`params.get("conditions")` is truthy; one bullet per element (iterating a
string yields its characters; iterating a non-iterable raises).  `none`
models the raise, `some none` the omitted section. -/
def conditionsView (h : Heap) (es : DictEntries) : Option (Option (List String)) :=
  let cv := entGetD es "conditions" pyNone
  if pyTruthy h cv then
    match cv with
    | pyList a => some (some ((heapList h a).map (strOf h)))
    | pyStr s => some (some (s.toList.map (fun c => String.mk [c])))
    | _ => none
  else some none

/-- `display_offer` (lines 158-186) as a function of the heap, the render
time (`datetime.now()`), and the entries of the dict object it receives.
`none` models the render raising — in particular the `KeyError` when
`value` is absent, accessed without a default in both branches of line
160.  Evaluation follows source order: the expiry arithmetic of line 159,
then `params['value']`, then the audience and conditions pieces. -/
def display_offer (h : Heap) (now : Date) (es : DictEntries) : Option RenderedOffer :=
  match pyToInt (entGetD es "duration_days" (pyInt 7)) with
  | none => none
  | some dur =>
    match entGet es "value" with
    | none => none
    | some v =>
      match audienceText es with
      | none => none
      | some aud =>
        match conditionsView h es with
        | none => none
        | some conds =>
          some {
            icon := if entGetD es "offer_type" pyNone = pyStr "cashback" then "💰" else "🏷️"
            offer_name_text := strOf h (entGetD es "offer_name" (pyStr "Special Offer"))
            value_display :=
              if entGetD es "value_type" pyNone = pyStr "percentage" then strOf h v ++ "%"
              else format_currency h v
            offer_type_text := strOf h (entGetD es "offer_type" pyNone)
            min_spend_text := format_currency h (entGetD es "min_spend" (pyInt 0))
            valid_until := strftimeBDY (dateAdd now dur)
            audience_text := aud
            conditions_shown := conds }

/-- The day count `display_offer` adds to the render time:
`params.get("duration_days", 7)` as a number (`0` is never reached on a
successful render). -/
def durationDefault (es : DictEntries) : Int :=
  (pyToInt (entGetD es "duration_days" (pyInt 7))).getD 0

/-- Schema typing of the presenter's optional inputs: any stored
`duration_days`, `audience` and `conditions` have their schema types
(other fields render through `str()` at any type). -/
def wellTypedOffer (es : DictEntries) : Bool :=
  (match entGet es "duration_days" with
   | some (pyInt _) => true
   | none => true
   | _ => false) &&
  (match entGet es "audience" with
   | some (pyStr _) => true
   | none => true
   | _ => false) &&
  (match entGet es "conditions" with
   | some (pyList _) => true
   | none => true
   | _ => false)

/-! ## Mutations of the working copy (for the clone-independence claim) -/

/-- A mutation the user can apply to the working-copy dict: rebinding a
top-level field (what every editor widget assignment does), or mutating
the list stored under a key in place through the copy's reference. -/
inductive Mutation where
  | setField (k : String) (v : PyVal)
  | listAppend (k : String) (x : PyVal)
  deriving DecidableEq, Repr

/-- Apply one mutation to the dict object at `a`. -/
def applyMutation (a : Nat) (h : Heap) : Mutation → Heap
  | .setField k v => dictUpdate h a k v
  | .listAppend k x =>
    match entGet (heapDict h a) k with
    | some (pyList la) => heapListSet h la (heapList h la ++ [x])
    | _ => h

/-- Apply a sequence of mutations to the dict object at `a`. -/
def applyMutations (a : Nat) (ms : List Mutation) (h : Heap) : Heap :=
  ms.foldl (applyMutation a) h

/-- A record field as observed through the heap, with list contents
inlined — the "as extracted" display reads fields this way, so effects
through shared list storage are visible.  (The offer schema nests only
the `conditions` list, so lists are the one container inlined.) -/
inductive ObsVal where
  | atom (v : PyVal)
  | listVal (xs : List PyVal)
  | missing
  deriving DecidableEq, Repr

/-- Observe field `k` of the dict object at `a`. -/
def observeField (h : Heap) (a : Nat) (k : String) : ObsVal :=
  match entGet (heapDict h a) k with
  | none => ObsVal.missing
  | some (pyList la) => ObsVal.listVal (heapList h la)
  | some v => ObsVal.atom v

/-- Whether a mutation is a plain top-level field rebinding. -/
def Mutation.isSetField : Mutation → Bool
  | .setField _ _ => true
  | _ => false

/-- `offer_params.copy()` on a dict object: the shallow clone the
workflow stores as the working copy (same entry list, fresh address). -/
def cloneDict (h : Heap) (a : Nat) : Heap × Nat := allocDict h (heapDict h a)

example (h : Heap) (a : Nat) :
    pyCopy h (pyDict a) = some (pyDict (cloneDict h a).2, (cloneDict h a).1) := rfl

/-! ## Concrete sample states used by counterexamples and witnesses -/

/-- A fixed render time, 2024-01-01. -/
def d2024 : Date := ⟨2024, 1, 1⟩

/-- A session holding a previously extracted record (dict 0) and working
copy (dict 1), as after one successful extraction. -/
def hPrior : Heap := ⟨[], [[("value", pyInt 1)], [("value", pyInt 1)]]⟩

/-- The session state matching `hPrior`. -/
def stPrior : SessionState := ⟨some (pyDict 0), some (pyDict 1), true, ""⟩

/-- A working copy whose stored `offer_type` lies outside the enum. -/
def esBogus : DictEntries := [("offer_type", pyStr "bogus"), ("value", pyInt 20)]

/-- Heap holding `esBogus` as dict 0. -/
def hBogus : Heap := ⟨[], [esBogus]⟩

/-- Heap holding a working copy with no `offer_type` key as dict 0. -/
def hNoType : Heap := ⟨[], [[("value", pyInt 20)]]⟩

/-- Arbitrary widget results for one editor render. -/
def inp0 : EditorInputs := ⟨"Welcome", 0, 20, 500, 7, 10⟩

/-- Extracted record whose `conditions` field is the list object 0. -/
def h4 : Heap := ⟨[[pyStr "a"]], [[("conditions", pyList 0), ("value", pyInt 20)]]⟩

/-- A record carrying only `value`; every other presenter field is
absent. -/
def esMin : DictEntries := [("value", pyInt 20)]

/-- `display_offer` output for `esMin` at `d2024` on the empty heap. -/
def rMin : RenderedOffer :=
  { icon := "🏷️"
    offer_name_text := "Special Offer"
    value_display := "\\$20"
    offer_type_text := "None"
    min_spend_text := "\\$0"
    valid_until := "Jan 08, 2024"
    audience_text := "All Customers"
    conditions_shown := none }

/-- A record with a percentage value. -/
def esPct : DictEntries := [("value", pyInt 20), ("value_type", pyStr "percentage")]

/-- `display_offer` output for `esPct` at `d2024` on the empty heap. -/
def rPct : RenderedOffer := { rMin with value_display := "20%" }

/-- A record with a fixed-amount value. -/
def esFixed : DictEntries := [("value", pyInt 20), ("value_type", pyStr "fixed")]

/-- Working copy with `max_redemptions = 5`, held as dict 0. -/
def hMr5 : Heap := ⟨[], [[("value", pyInt 20), ("max_redemptions", pyInt 5)]]⟩

/-- Working copy with `max_redemptions = null`, held as dict 0. -/
def hMrNull : Heap := ⟨[], [[("value", pyInt 20), ("max_redemptions", pyNone)]]⟩

/-- Stored extracted record containing `min_spend`, held as dict 0. -/
def h10 : Heap := ⟨[], [[("min_spend", pyInt 500), ("value", pyInt 20)]]⟩

/-- Session whose extracted record is `h10`'s dict 0 (pre-edit display). -/
def st10 : SessionState := ⟨some (pyDict 0), none, false, ""⟩

example : display_offer Heap.empty d2024 esMin = some rMin := by decide
example : display_offer Heap.empty d2024 esPct = some rPct := by decide

/-! ## Basic lemmas about the dict and heap operations -/

theorem listGetD_set_self {α : Type} (l : List α) (i : Nat) (x d : α) (h : i < l.length) :
    (l.set i x).getD i d = x := by
  induction l generalizing i with
  | nil => simp at h
  | cons hd tl ih =>
    cases i with
    | zero => simp
    | succ j => simpa using ih j (by simpa using h)

theorem listGetD_set_ne {α : Type} (l : List α) (i j : Nat) (x d : α) (h : j ≠ i) :
    (l.set i x).getD j d = l.getD j d := by
  induction l generalizing i j with
  | nil => simp
  | cons hd tl ih =>
    cases i with
    | zero =>
      cases j with
      | zero => exact absurd rfl h
      | succ j' => simp
    | succ i' =>
      cases j with
      | zero => simp
      | succ j' => simpa using ih i' j' (fun hc => h (by omega))

theorem listGetD_append_lt {α : Type} (l l' : List α) (i : Nat) (d : α) (h : i < l.length) :
    (l ++ l').getD i d = l.getD i d := by
  induction l generalizing i with
  | nil => simp at h
  | cons hd tl ih =>
    cases i with
    | zero => simp
    | succ j => simpa using ih j (by simpa using h)

theorem listGetD_append_len {α : Type} (l : List α) (x d : α) :
    (l ++ [x]).getD l.length d = x := by
  induction l with
  | nil => simp
  | cons hd tl ih => simp [ih]

theorem entGet_entSet_self (es : DictEntries) (k : String) (v : PyVal) :
    entGet (entSet es k v) k = some v := by
  induction es with
  | nil => simp [entSet, entGet]
  | cons hd tl ih =>
    obtain ⟨k', v'⟩ := hd
    by_cases hk : k' = k
    · simp [entSet, entGet, hk]
    · simp [entSet, entGet, hk, ih]

theorem entGet_entSet_ne (es : DictEntries) (k k' : String) (v : PyVal) (h : k ≠ k') :
    entGet (entSet es k v) k' = entGet es k' := by
  induction es with
  | nil => simp [entSet, entGet, h]
  | cons hd tl ih =>
    obtain ⟨k0, v0⟩ := hd
    by_cases hk : k0 = k
    · subst hk
      simp [entSet, entGet, h]
    · simp [entSet, entGet, hk, ih]

theorem entGet_some_ne_nil {es : DictEntries} {k : String} {v : PyVal}
    (h : entGet es k = some v) : es.length ≠ 0 := by
  cases es with
  | nil => simp [entGet] at h
  | cons hd tl => simp

theorem heapDict_dictUpdate_self (h : Heap) (a : Nat) (k : String) (v : PyVal)
    (ha : a < h.dicts.length) :
    heapDict (dictUpdate h a k v) a = entSet (heapDict h a) k v := by
  show (h.dicts.set a (entSet (heapDict h a) k v)).getD a [] = entSet (heapDict h a) k v
  exact listGetD_set_self _ _ _ _ ha

theorem heapDict_dictUpdate_ne (h : Heap) (a a' : Nat) (k : String) (v : PyVal)
    (ha : a' ≠ a) :
    heapDict (dictUpdate h a k v) a' = heapDict h a' := by
  show (h.dicts.set a (entSet (heapDict h a) k v)).getD a' [] = h.dicts.getD a' []
  exact listGetD_set_ne _ _ _ _ _ ha

theorem lists_dictUpdate (h : Heap) (a : Nat) (k : String) (v : PyVal) :
    (dictUpdate h a k v).lists = h.lists := rfl

theorem heapList_dictUpdate (h : Heap) (a : Nat) (k : String) (v : PyVal) (la : Nat) :
    heapList (dictUpdate h a k v) la = heapList h la := rfl

theorem dicts_length_dictUpdate (h : Heap) (a : Nat) (k : String) (v : PyVal) :
    (dictUpdate h a k v).dicts.length = h.dicts.length := by
  simp [dictUpdate]

theorem heapDict_cloneDict_fresh (h : Heap) (a : Nat) :
    heapDict (cloneDict h a).1 (cloneDict h a).2 = heapDict h a := by
  simp [cloneDict, allocDict, heapDict, listGetD_append_len]

theorem heapDict_cloneDict_lt (h : Heap) (a a' : Nat) (ha : a' < h.dicts.length) :
    heapDict (cloneDict h a).1 a' = heapDict h a' := by
  show (h.dicts ++ [heapDict h a]).getD a' [] = h.dicts.getD a' []
  exact listGetD_append_lt _ _ _ _ ha

theorem lists_cloneDict (h : Heap) (a : Nat) : (cloneDict h a).1.lists = h.lists := rfl

theorem cloneDict_addr (h : Heap) (a : Nat) : (cloneDict h a).2 = h.dicts.length := rfl

theorem entGet_heapDict_dictUpdate_ne (h : Heap) (a : Nat) (k k' : String) (v : PyVal)
    (ha : a < h.dicts.length) (hk : k ≠ k') :
    entGet (heapDict (dictUpdate h a k v) a) k' = entGet (heapDict h a) k' := by
  rw [heapDict_dictUpdate_self h a k v ha, entGet_entSet_ne _ _ _ _ hk]

/-! ## Claim C3 — currency formatting -/

/-- C3 (counterexample): `format_currency(500)` is not the literal string
"$500": the source escapes the dollar sign for Markdown, so the returned
string is the five-character `\$500`. -/
theorem c3_counterexample :
    format_currency Heap.empty (pyInt 500) ≠ "$500" ∧
    format_currency Heap.empty (pyInt 500) = "\\$500" :=
  ⟨by decide, by decide⟩

/-- C3 (amended): for every integer amount, `format_currency` returns the
Markdown-escaped currency symbol — a backslash then the dollar sign —
prefixed to the bare numeric value, with no other transformation; in
particular `format_currency(500)` equals the literal `\$500`. -/
theorem c3_amended :
    (∀ (h : Heap) (n : Int), format_currency h (pyInt n) = "\\$" ++ toString n) ∧
    format_currency Heap.empty (pyInt 500) = "\\$500" :=
  ⟨fun _ _ => rfl, by decide⟩

/-! ## Claim C5 — fence stripping is not idempotent -/

/-- C5 (counterexample): fence-stripping is not idempotent.  In the input
below the first strip replaces the leading fenced block by its body
(two backticks), and those backticks combine with the stray text that
follows into a brand-new `json` fence, which a second strip removes. -/
theorem c5_counterexample :
    strip_code_fence (strip_code_fence "```json\n``\n````json\nB\n```")
      ≠ strip_code_fence "```json\n``\n````json\nB\n```" ∧
    strip_code_fence "```json\n``\n````json\nB\n```" = "```json\nB\n```" ∧
    strip_code_fence "```json\nB\n```" = "B" :=
  ⟨by decide, by decide, by decide⟩

/-! ## Claim C7 — percentage vs fixed value display -/

/-- C7 (counterexample): with `value = 20` and `value_type = "fixed"` the
presenter renders the Markdown-escaped `\$20`, not the literal "$20" the
claim states. -/
theorem c7_counterexample :
    (display_offer Heap.empty d2024 esFixed).map RenderedOffer.value_display ≠ some "$20" ∧
    (display_offer Heap.empty d2024 esFixed).map RenderedOffer.value_display = some "\\$20" :=
  ⟨by decide, by decide⟩

/-- C7 (amended): the presenter renders `value` as `str(value) ++ "%"`
when `value_type` equals "percentage", and as the Markdown-escaped
currency string otherwise; `(value 20, percentage)` renders "20%" and
`(value 20, fixed)` renders `\$20`. -/
theorem c7_amended :
    (∀ (h : Heap) (now : Date) (es : DictEntries) (r : RenderedOffer) (v : PyVal),
        display_offer h now es = some r → entGet es "value" = some v →
        r.value_display =
          if entGetD es "value_type" pyNone = pyStr "percentage" then strOf h v ++ "%"
          else format_currency h v) ∧
    (display_offer Heap.empty d2024 esPct).map RenderedOffer.value_display = some "20%" ∧
    (display_offer Heap.empty d2024 esFixed).map RenderedOffer.value_display = some "\\$20" := by
  refine ⟨?_, by decide, by decide⟩
  intro h now es r v hr hv
  cases hdur : pyToInt (entGetD es "duration_days" (pyInt 7)) with
  | none => simp [display_offer, hdur] at hr
  | some dur =>
    cases haud : audienceText es with
    | none => simp [display_offer, hdur, hv, haud] at hr
    | some aud =>
      cases hc : conditionsView h es with
      | none => simp [display_offer, hdur, hv, haud, hc] at hr
      | some conds =>
        simp [display_offer, hdur, hv, haud, hc] at hr
        rw [← hr]

/-- C7 witness: the amended theorem applied at `esPct`. -/
theorem c7_amended_witness :
    display_offer Heap.empty d2024 esPct = some rPct ∧ rPct.value_display = "20%" :=
  ⟨by decide,
   (c7_amended.1 Heap.empty d2024 esPct rPct (pyInt 20) (by decide) (by decide)).trans
     (by decide)⟩

/-! ## Claim C6 — expiry is computed from the render time -/

/-- C6: on every successful render, the "Valid until" line is the render
time plus `duration_days` (defaulting to 7 when the field is absent),
formatted `'%b %d, %Y'`; the render time is `display_offer`'s only time
input, so the expiry never depends on the extraction time. -/
theorem c6_expiry_from_render_time :
    ∀ (h : Heap) (now : Date) (es : DictEntries) (r : RenderedOffer),
      display_offer h now es = some r →
      r.valid_until = strftimeBDY (dateAdd now (durationDefault es)) := by
  intro h now es r hr
  cases hdur : pyToInt (entGetD es "duration_days" (pyInt 7)) with
  | none => simp [display_offer, hdur] at hr
  | some dur =>
    cases hv : entGet es "value" with
    | none => simp [display_offer, hdur, hv] at hr
    | some v =>
      cases haud : audienceText es with
      | none => simp [display_offer, hdur, hv, haud] at hr
      | some aud =>
        cases hc : conditionsView h es with
        | none => simp [display_offer, hdur, hv, haud, hc] at hr
        | some conds =>
          simp [display_offer, hdur, hv, haud, hc] at hr
          rw [← hr]
          simp [durationDefault, hdur]

/-- C6 witness: with `duration_days = 7` and render time 2024-01-01 the
expiry renders as "Jan 08, 2024". -/
theorem c6_expiry_witness :
    display_offer Heap.empty d2024 [("value", pyInt 20), ("duration_days", pyInt 7)]
      = some rMin ∧
    rMin.valid_until = "Jan 08, 2024" :=
  ⟨by decide,
   (c6_expiry_from_render_time Heap.empty d2024
      [("value", pyInt 20), ("duration_days", pyInt 7)] rMin (by decide)).trans (by decide)⟩

/-! ## Claim C2 — editor behaviour on out-of-enum offer_type -/

/-- C2 (counterexample): a working copy whose stored `offer_type` is
"bogus" is not displayed with a "cashback" default — the `list.index`
call of line 129 raises `ValueError` and the editor render fails. -/
theorem c2_counterexample :
    offer_type_select_index esBogus = none ∧ (offer_editor inp0 hBogus 0).2 = true :=
  ⟨by decide, by decide⟩

/-- C2 (amended): the editor defaults the displayed `offer_type` to the
first enum value ("cashback", index 0) only when the working copy has no
`offer_type` key; when a stored value lies outside the enum, the
selectbox-index lookup raises `ValueError` and the editor render fails
instead of defaulting. -/
theorem c2_amended :
    ∀ (inp : EditorInputs) (h : Heap) (a : Nat), a < h.dicts.length →
      (entGet (heapDict h a) "offer_type" = none →
        offer_type_select_index (heapDict h a) = some 0 ∧
        (offer_editor inp h a).2 = false) ∧
      (∀ v, entGet (heapDict h a) "offer_type" = some v →
        listIndex offerTypeOptions v = none → (offer_editor inp h a).2 = true) := by
  intro inp h a ha
  constructor
  · intro hnone
    have hidx : offer_type_select_index (heapDict h a) = some 0 := by
      rw [offer_type_select_index, entGetD, hnone]
      decide
    have hidx1 :
        offer_type_select_index
          (heapDict (dictUpdate h a "offer_name" (pyStr inp.offer_name)) a) = some 0 := by
      rw [offer_type_select_index, entGetD,
        entGet_heapDict_dictUpdate_ne h a _ _ _ ha (by decide), hnone]
      decide
    refine ⟨hidx, ?_⟩
    simp only [offer_editor, hidx1]
    split <;> rfl
  · intro v hv hvidx
    have hidx1 :
        offer_type_select_index
          (heapDict (dictUpdate h a "offer_name" (pyStr inp.offer_name)) a) = none := by
      rw [offer_type_select_index, entGetD,
        entGet_heapDict_dictUpdate_ne h a _ _ _ ha (by decide), hv]
      exact hvidx
    simp only [offer_editor, hidx1]

/-- C2 witness: the amended theorem at a working copy with no
`offer_type` key and at `esBogus`. -/
theorem c2_amended_witness :
    (0 < hNoType.dicts.length ∧ entGet (heapDict hNoType 0) "offer_type" = none ∧
      offer_type_select_index (heapDict hNoType 0) = some 0 ∧
      (offer_editor inp0 hNoType 0).2 = false) ∧
    (offer_editor inp0 hBogus 0).2 = true :=
  ⟨⟨by decide, by decide,
    ((c2_amended inp0 hNoType 0 (by decide)).1 (by decide)).1,
    ((c2_amended inp0 hNoType 0 (by decide)).1 (by decide)).2⟩,
   (c2_amended inp0 hBogus 0 (by decide)).2 (pyStr "bogus") (by decide) (by decide)⟩

/-! ## Claim C8 — max_redemptions editability -/

/-- C8: the editor exposes the "Max Redemptions" numeric control exactly
when the stored value is non-null and non-zero (an absent key or a stored
`null` shows no control), and no editor render moves `max_redemptions`
between unset (absent/null) and a concrete value. -/
theorem c8_max_redemptions_editability :
    (∀ (h : Heap) (es : DictEntries),
      (entGet es "max_redemptions" = none → max_redemptions_control_shown h es = false) ∧
      (entGet es "max_redemptions" = some pyNone →
        max_redemptions_control_shown h es = false) ∧
      (∀ n : Int, entGet es "max_redemptions" = some (pyInt n) →
        (max_redemptions_control_shown h es = true ↔ n ≠ 0))) ∧
    (∀ (inp : EditorInputs) (h : Heap) (a : Nat), a < h.dicts.length →
      max_redemptions_unset (heapDict (offer_editor inp h a).1 a)
        = max_redemptions_unset (heapDict h a)) := by
  constructor
  · intro h es
    refine ⟨?_, ?_, ?_⟩
    · intro hmr
      rw [max_redemptions_control_shown, entGetD, hmr]
      rfl
    · intro hmr
      rw [max_redemptions_control_shown, entGetD, hmr]
      rfl
    · intro n hmr
      rw [max_redemptions_control_shown, entGetD, hmr]
      simp [pyTruthy]
  · intro inp h a ha
    simp only [offer_editor]
    split
    · rw [max_redemptions_unset, max_redemptions_unset,
        entGet_heapDict_dictUpdate_ne h a _ _ _ ha (by decide)]
    · have hmr :
          entGet (heapDict (dictUpdate (dictUpdate (dictUpdate (dictUpdate
            (dictUpdate h a "offer_name" (pyStr inp.offer_name))
            a "offer_type" (offerTypeOptions.getD inp.offer_type_choice.val pyNone))
            a "value" (pyInt inp.value))
            a "min_spend" (pyInt inp.min_spend))
            a "duration_days" (pyInt inp.duration_days)) a) "max_redemptions"
          = entGet (heapDict h a) "max_redemptions" := by
        rw [entGet_heapDict_dictUpdate_ne _ a _ _ _
            (by simp only [dicts_length_dictUpdate]; exact ha) (by decide),
          entGet_heapDict_dictUpdate_ne _ a _ _ _
            (by simp only [dicts_length_dictUpdate]; exact ha) (by decide),
          entGet_heapDict_dictUpdate_ne _ a _ _ _
            (by simp only [dicts_length_dictUpdate]; exact ha) (by decide),
          entGet_heapDict_dictUpdate_ne _ a _ _ _
            (by simp only [dicts_length_dictUpdate]; exact ha) (by decide),
          entGet_heapDict_dictUpdate_ne h a _ _ _ ha (by decide)]
      split
      · next hguard =>
        rw [max_redemptions_unset,
          heapDict_dictUpdate_self _ a _ _ (by simp only [dicts_length_dictUpdate]; exact ha),
          entGet_entSet_self]
        rw [max_redemptions_control_shown, entGetD, hmr] at hguard
        rw [max_redemptions_unset]
        cases hv : entGet (heapDict h a) "max_redemptions" with
        | none => rw [hv] at hguard; simp [pyTruthy] at hguard
        | some v =>
          rw [hv] at hguard
          cases v with
          | pyNone => exact absurd hguard (by simp [pyTruthy])
          | pyBool b => rfl
          | pyInt n => rfl
          | pyStr s => rfl
          | pyList la => rfl
          | pyDict da => rfl
      · rw [max_redemptions_unset, max_redemptions_unset, hmr]

/-- C8 witness: a working copy with `max_redemptions = 5` shows the
control, one with `max_redemptions = null` does not, and an editor render
on the former keeps the field concrete. -/
theorem c8_witness :
    (max_redemptions_control_shown hMr5 (heapDict hMr5 0) = true) ∧
    (max_redemptions_control_shown hMrNull (heapDict hMrNull 0) = false) ∧
    (max_redemptions_unset (heapDict (offer_editor inp0 hMr5 0).1 0)
      = max_redemptions_unset (heapDict hMr5 0)) :=
  ⟨((c8_max_redemptions_editability.1 hMr5 (heapDict hMr5 0)).2.2 5 (by decide)).mpr
     (by decide),
   (c8_max_redemptions_editability.1 hMrNull (heapDict hMrNull 0)).2.1 (by decide),
   c8_max_redemptions_editability.2 inp0 hMr5 0 (by decide)⟩

/-! ## Claim C1 — failed extraction and the store -/

/-- C1 (counterexample): with a previously extracted record in the store,
a malformed model response makes the Generate-Offer run overwrite
`offer_params` with the failure value `None` (after which `None.copy()`
raises): the previously stored extracted record does not survive the
failed attempt. -/
theorem c1_counterexample :
    stPrior.offer_params = some (pyDict 0) ∧
    extract_offer_parameters hPrior (some "not json")
      = ExtractResult.failure "Extraction error: malformed model response" ∧
    (generate_offer_step (some "not json") hPrior stPrior).2.1.offer_params = none ∧
    (generate_offer_step (some "not json") hPrior stPrior).2.2 = true :=
  ⟨by decide, by decide, by decide, by decide⟩

/-- C1 (amended): if the model response is malformed, the extraction
operation returns a Failure with a surfaced message, and the failed
attempt leaves the working copy, the `offer_created` flag and the heap
unchanged — but not the stored extracted record: line 191 overwrites
`offer_params` with the failure value (`None`), and line 192's
`None.copy()` then raises, aborting the run. -/
theorem c1_amended :
    ∀ (h : Heap) (st : SessionState) (resp : Option String) (msg : String),
      extract_offer_parameters h resp = ExtractResult.failure msg →
      generate_offer_step resp h st = (h, { st with offer_params := none }, true) := by
  intro h st resp msg hfail
  simp [generate_offer_step, hfail]

/-- C1 witness: the amended theorem at the malformed response
"not json" over a store holding a prior record. -/
theorem c1_amended_witness :
    extract_offer_parameters hPrior (some "not json")
      = ExtractResult.failure "Extraction error: malformed model response" ∧
    generate_offer_step (some "not json") hPrior stPrior
      = (hPrior, { stPrior with offer_params := none }, true) :=
  ⟨by decide,
   c1_amended hPrior stPrior (some "not json")
     "Extraction error: malformed model response" (by decide)⟩

/-! ## Claim C10 — the raw-JSON view formats a copy only -/

/-- C10: the raw-parameters block copies the extracted record and applies
the currency pre-formatting of `min_spend` to the copy only: the run does
not raise, the value handed to `st.json` is the fresh copy holding the
formatted string, and the stored extracted record — read through the
resulting heap — still holds the original numeric `min_spend`. -/
theorem c10_raw_view_formats_copy_only :
    ∀ (h : Heap) (st : SessionState) (a : Nat) (n : Int),
      st.offer_params = some (pyDict a) → a < h.dicts.length →
      entGet (heapDict h a) "min_spend" = some (pyInt n) →
      (raw_params_display h st).2.2 = false ∧
      (raw_params_display h st).2.1 = some (pyDict h.dicts.length) ∧
      observeField (raw_params_display h st).1 h.dicts.length "min_spend"
        = ObsVal.atom (pyStr ("\\$" ++ toString n)) ∧
      observeField (raw_params_display h st).1 a "min_spend"
        = ObsVal.atom (pyInt n) ∧
      heapDict (raw_params_display h st).1 a = heapDict h a := by
  intro h st a n hst ha hmr
  have hne : (heapDict h a).length ≠ 0 := entGet_some_ne_nil hmr
  have htr : pyTruthy h (pyDict a) = true := by simp [pyTruthy, hne]
  have hcopy : pyCopy h (pyDict a)
      = some (pyDict h.dicts.length, { h with dicts := h.dicts ++ [heapDict h a] }) := rfl
  have hd1 : heapDict { h with dicts := h.dicts ++ [heapDict h a] } h.dicts.length
      = heapDict h a := by
    show (h.dicts ++ [heapDict h a]).getD h.dicts.length [] = _
    exact listGetD_append_len _ _ _
  have hcont : pyContains { h with dicts := h.dicts ++ [heapDict h a] }
      (pyDict h.dicts.length) (pyStr "min_spend") = some true := by
    simp [pyContains, entHasKey, hd1, hmr]
  have hres : raw_params_display h st
      = (dictUpdate { h with dicts := h.dicts ++ [heapDict h a] } h.dicts.length
           "min_spend" (pyStr ("\\$" ++ toString n)),
         some (pyDict h.dicts.length), false) := by
    rw [raw_params_display]
    rw [hst]
    simp only [Option.getD_some, htr, if_true, hcopy, hcont]
    rw [show entGetD (heapDict { h with dicts := h.dicts ++ [heapDict h a] }
          h.dicts.length) "min_spend" pyNone = pyInt n by rw [entGetD, hd1, hmr]; rfl]
    rfl
  have hlen1 : h.dicts.length
      < ({ h with dicts := h.dicts ++ [heapDict h a] } : Heap).dicts.length := by
    simp
  have hane : a ≠ h.dicts.length := by omega
  refine ⟨by rw [hres], by rw [hres], ?_, ?_, ?_⟩
  · rw [hres, observeField, heapDict_dictUpdate_self _ _ _ _ hlen1, entGet_entSet_self]
  · rw [hres, observeField, heapDict_dictUpdate_ne _ _ _ _ _ hane]
    rw [show heapDict { h with dicts := h.dicts ++ [heapDict h a] } a = heapDict h a from
      listGetD_append_lt _ _ _ _ ha]
    rw [hmr]
  · rw [hres, heapDict_dictUpdate_ne _ _ _ _ _ hane]
    exact listGetD_append_lt _ _ _ _ ha

/-- C10 witness: the theorem at the concrete stored record `h10`. -/
theorem c10_witness :
    (raw_params_display h10 st10).2.2 = false ∧
    observeField (raw_params_display h10 st10).1 1 "min_spend"
      = ObsVal.atom (pyStr "\\$500") ∧
    observeField (raw_params_display h10 st10).1 0 "min_spend"
      = ObsVal.atom (pyInt 500) :=
  ⟨(c10_raw_view_formats_copy_only h10 st10 0 500 (by decide) (by decide) (by decide)).1,
   (c10_raw_view_formats_copy_only h10 st10 0 500 (by decide) (by decide) (by decide)).2.2.1,
   (c10_raw_view_formats_copy_only h10 st10 0 500 (by decide) (by decide) (by decide)).2.2.2.1⟩

/-! ## Claim C4 — clone independence -/

/-- C4 (counterexample): the clone is shallow, so the extracted record
and the working copy share the `conditions` list object: appending to it
through the clone changes what the extracted record's `conditions` field
observes. -/
theorem c4_counterexample :
    observeField
        (applyMutations (cloneDict h4 0).2
          [Mutation.listAppend "conditions" (pyStr "b")] (cloneDict h4 0).1)
        0 "conditions"
      ≠ observeField h4 0 "conditions" ∧
    observeField h4 0 "conditions" = ObsVal.listVal [pyStr "a"] ∧
    observeField
        (applyMutations (cloneDict h4 0).2
          [Mutation.listAppend "conditions" (pyStr "b")] (cloneDict h4 0).1)
        0 "conditions"
      = ObsVal.listVal [pyStr "a", pyStr "b"] :=
  ⟨by decide, by decide, by decide⟩

/-- Frame lemma: a sequence of top-level field rebindings on the dict at
`a1` touches no list object and no other dict object. -/
theorem applyMutations_setFields_frame (ms : List Mutation)
    (hall : ∀ m ∈ ms, m.isSetField = true) (g : Heap) (a1 : Nat) :
    (applyMutations a1 ms g).lists = g.lists ∧
    (∀ a, a ≠ a1 → heapDict (applyMutations a1 ms g) a = heapDict g a) := by
  induction ms generalizing g with
  | nil => exact ⟨rfl, fun _ _ => rfl⟩
  | cons m t ih =>
    have hm := hall m (by simp)
    cases m with
    | setField k v =>
      have ht := ih (fun m' hm' => hall m' (by simp [hm'])) (dictUpdate g a1 k v)
      refine ⟨?_, ?_⟩
      · show (applyMutations a1 t (dictUpdate g a1 k v)).lists = g.lists
        rw [ht.1, lists_dictUpdate]
      · intro a haa
        show heapDict (applyMutations a1 t (dictUpdate g a1 k v)) a = heapDict g a
        rw [ht.2 a haa, heapDict_dictUpdate_ne _ _ _ _ _ haa]
    | listAppend k x => simp [Mutation.isSetField] at hm

/-- C4 (amended): every sequence of top-level field rebindings applied to
the working copy leaves every observed field of the extracted record
unchanged; but the clone is shallow — the `conditions` list object is
shared — so in-place mutation of that list through the working copy is
visible in the extracted record. -/
theorem c4_amended :
    ∀ (ms : List Mutation), (∀ m ∈ ms, m.isSetField = true) →
      ∀ (h : Heap) (a : Nat), a < h.dicts.length →
        ∀ k, observeField (applyMutations (cloneDict h a).2 ms (cloneDict h a).1) a k
              = observeField h a k := by
  intro ms hall h a ha k
  obtain ⟨hl, hd⟩ :=
    applyMutations_setFields_frame ms hall (cloneDict h a).1 (cloneDict h a).2
  have hane : a ≠ (cloneDict h a).2 := by rw [cloneDict_addr]; omega
  have hdict : heapDict (applyMutations (cloneDict h a).2 ms (cloneDict h a).1) a
      = heapDict h a := by
    rw [hd a hane, heapDict_cloneDict_lt h a a ha]
  have hlists : (applyMutations (cloneDict h a).2 ms (cloneDict h a).1).lists = h.lists := by
    rw [hl, lists_cloneDict]
  rw [observeField, observeField, hdict]
  cases entGet (heapDict h a) k with
  | none => rfl
  | some v => cases v <;> simp [heapList, hlists]

/-- C4 witness: the amended theorem at a concrete field rebinding on the
clone of `h4`'s record. -/
theorem c4_amended_witness :
    (∀ m ∈ [Mutation.setField "value" (pyInt 99)], m.isSetField = true) ∧
    observeField
        (applyMutations (cloneDict h4 0).2
          [Mutation.setField "value" (pyInt 99)] (cloneDict h4 0).1) 0 "value"
      = observeField h4 0 "value" :=
  ⟨by decide,
   c4_amended [Mutation.setField "value" (pyInt 99)] (by decide) h4 0 (by decide) "value"⟩

/-! ## Claim C9 — the presenter tolerates every absence except `value` -/

/-- C9: on a schema-typed record, when `value` is present rendering
succeeds, and each absent optional field falls back to its default
("Special Offer", the tag icon, the formatted 0 minimum spend, an expiry
7 days after the render time, "all customers" title-cased, and an omitted
conditions section); when `value` is absent rendering fails with the
lookup error, since `params['value']` is read without a default in both
branches of line 160. -/
theorem c9_presenter_defaults :
    ∀ (h : Heap) (now : Date) (es : DictEntries), wellTypedOffer es = true →
      (∀ v, entGet es "value" = some v →
        ∃ r, display_offer h now es = some r ∧
          (entGet es "offer_name" = none → r.offer_name_text = "Special Offer") ∧
          (entGet es "offer_type" = none → r.icon = "🏷️") ∧
          (entGet es "min_spend" = none → r.min_spend_text = "\\$0") ∧
          (entGet es "duration_days" = none →
            r.valid_until = strftimeBDY (dateAdd now 7)) ∧
          (entGet es "audience" = none → r.audience_text = "All Customers") ∧
          (entGet es "conditions" = none → r.conditions_shown = none)) ∧
      (entGet es "value" = none → display_offer h now es = none) := by
  intro h now es hwt
  have hwt' := hwt
  simp only [wellTypedOffer, Bool.and_eq_true] at hwt'
  obtain ⟨⟨hdt, hat⟩, hct⟩ := hwt'
  have hdur : ∃ d, pyToInt (entGetD es "duration_days" (pyInt 7)) = some d ∧
      (entGet es "duration_days" = none → d = 7) := by
    cases hd : entGet es "duration_days" with
    | none => exact ⟨7, by rw [entGetD, hd]; rfl, fun _ => rfl⟩
    | some v =>
      rw [hd] at hdt
      cases v with
      | pyInt m =>
        exact ⟨m, by rw [entGetD, hd]; rfl,
          fun h0 => by simp [hd] at h0⟩
      | pyNone => simp at hdt
      | pyBool b => simp at hdt
      | pyStr s => simp at hdt
      | pyList la => simp at hdt
      | pyDict da => simp at hdt
  have haud : ∃ saud, audienceText es = some saud ∧
      (entGet es "audience" = none → saud = "All Customers") := by
    cases hd : entGet es "audience" with
    | none =>
      refine ⟨"All Customers", ?_, fun _ => rfl⟩
      rw [audienceText, entGetD, hd]
      decide
    | some v =>
      rw [hd] at hat
      cases v with
      | pyStr s =>
        exact ⟨pyTitle s, by rw [audienceText, entGetD, hd]; rfl,
          fun h0 => by simp [hd] at h0⟩
      | pyNone => simp at hat
      | pyBool b => simp at hat
      | pyInt m => simp at hat
      | pyList la => simp at hat
      | pyDict da => simp at hat
  have hcond : ∃ c, conditionsView h es = some c ∧
      (entGet es "conditions" = none → c = none) := by
    cases hd : entGet es "conditions" with
    | none =>
      refine ⟨none, ?_, fun _ => rfl⟩
      rw [conditionsView, entGetD, hd]
      rfl
    | some v =>
      rw [hd] at hct
      cases v with
      | pyList la =>
        cases htr : pyTruthy h (pyList la) with
        | true =>
          refine ⟨some ((heapList h la).map (strOf h)), ?_,
            fun h0 => by simp [hd] at h0⟩
          rw [conditionsView, entGetD, hd]
          simp [htr]
        | false =>
          refine ⟨none, ?_,
            fun h0 => by simp [hd] at h0⟩
          rw [conditionsView, entGetD, hd]
          simp [htr]
      | pyNone => simp at hct
      | pyBool b => simp at hct
      | pyInt m => simp at hct
      | pyStr s => simp at hct
      | pyDict da => simp at hct
  obtain ⟨d, hd1, hd2⟩ := hdur
  obtain ⟨saud, ha1, ha2⟩ := haud
  obtain ⟨c, hc1, hc2⟩ := hcond
  constructor
  · intro v hv
    have hdisp : display_offer h now es = some
        { icon := if entGetD es "offer_type" pyNone = pyStr "cashback" then "💰" else "🏷️"
          offer_name_text := strOf h (entGetD es "offer_name" (pyStr "Special Offer"))
          value_display := if entGetD es "value_type" pyNone = pyStr "percentage"
            then strOf h v ++ "%" else format_currency h v
          offer_type_text := strOf h (entGetD es "offer_type" pyNone)
          min_spend_text := format_currency h (entGetD es "min_spend" (pyInt 0))
          valid_until := strftimeBDY (dateAdd now d)
          audience_text := saud
          conditions_shown := c } := by
      simp only [display_offer, hd1, hv, ha1, hc1]
    refine ⟨_, hdisp, ?_, ?_, ?_, ?_, ?_, ?_⟩
    · intro habs
      show strOf h (entGetD es "offer_name" (pyStr "Special Offer")) = "Special Offer"
      rw [entGetD, habs]
      rfl
    · intro habs
      show (if entGetD es "offer_type" pyNone = pyStr "cashback" then "💰" else "🏷️")
          = "🏷️"
      rw [entGetD, habs]
      rfl
    · intro habs
      show format_currency h (entGetD es "min_spend" (pyInt 0)) = "\\$0"
      rw [entGetD, habs]
      rfl
    · intro habs
      show strftimeBDY (dateAdd now d) = strftimeBDY (dateAdd now 7)
      rw [hd2 habs]
    · intro habs
      show saud = "All Customers"
      exact ha2 habs
    · intro habs
      show c = none
      exact hc2 habs
  · intro hv
    simp only [display_offer, hd1, hv]

/-- C9 witness: a record carrying only `value` renders with every
default, and a record with no `value` fails to render. -/
theorem c9_witness :
    wellTypedOffer esMin = true ∧
    display_offer Heap.empty d2024 esMin = some rMin ∧
    display_offer Heap.empty d2024 [] = none :=
  ⟨by decide, by decide,
   (c9_presenter_defaults Heap.empty d2024 [] (by decide)).2 (by decide)⟩

/-! ## Claim C5 (amended) — idempotence on canonical fenced payloads -/

theorem noTriple_cons (c : Char) (t : List Char) (h : noTriple (c :: t) = true) :
    (c :: t).take 3 ≠ bt3 ∧ noTriple t = true := by
  by_cases h3 : (c :: t).take 3 = bt3
  · simp only [noTriple] at h
    rw [if_pos h3] at h
    exact absurd h (by decide)
  · simp only [noTriple] at h
    rw [if_neg h3] at h
    exact ⟨h3, h⟩

theorem findTerm_canonical : ∀ b : List Char, noTriple b = true →
    findTerm (b ++ '\n' :: bt3) = some (b, []) := by
  intro b
  induction b with
  | nil => intro _; decide
  | cons c b' ih =>
    intro h
    obtain ⟨h3, ht⟩ := noTriple_cons c b' h
    have hrec := ih ht
    have hc2 : ¬((c :: (b' ++ '\n' :: bt3)).take 3 = bt3) := by
      rcases b' with _ | ⟨x, _ | ⟨y, rest⟩⟩
      · intro hcon; simp [bt3] at hcon
      · intro hcon; simp [bt3] at hcon
      · intro hcon
        apply h3
        simpa [bt3] using hcon
    have hc1 : ¬(c = '\n' ∧ (b' ++ '\n' :: bt3).take 3 = bt3) := by
      rintro ⟨hcn, hcon⟩
      rcases b' with _ | ⟨x, _ | ⟨y, _ | ⟨z, rest⟩⟩⟩
      · simp [bt3] at hcon
      · simp [bt3] at hcon
      · simp [bt3] at hcon
      · have hx : (x :: y :: z :: rest).take 3 = bt3 := by simpa [bt3] using hcon
        exact (noTriple_cons x (y :: z :: rest) ht).1 hx
    show findTerm (c :: (b' ++ '\n' :: bt3)) = some (c :: b', [])
    simp only [findTerm]
    rw [if_neg hc1, if_neg hc2, hrec]

theorem matchFenceAt_canonical (b : List Char) (hb : noTriple b = true) :
    matchFenceAt (fenceWrap b) = some (b, []) := by
  show (match findTerm (b ++ '\n' :: bt3) with
        | some br => some br
        | none => findTerm ('\n' :: (b ++ '\n' :: bt3))) = some (b, [])
  rw [findTerm_canonical b hb]

theorem matchFenceAt_none_of_noTriple (s : List Char) (hs : noTriple s = true) :
    matchFenceAt s = none := by
  have h7 : s.take 7 ≠ fenceHead := by
    intro h7
    have h3 : s.take 3 = bt3 := by
      have h33 := congrArg (List.take 3) h7
      simpa [List.take_take] using h33
    cases s with
    | nil => simp [bt3] at h3
    | cons c t =>
      simp only [noTriple] at hs
      rw [if_pos h3] at hs
      exact absurd hs (by decide)
  rw [matchFenceAt, if_neg h7]

theorem subFenceFuel_id : ∀ (n : Nat) (s : List Char), noTriple s = true →
    subFenceFuel n s = s := by
  intro n
  induction n with
  | zero => intro s _; rfl
  | succ m ih =>
    intro s hs
    cases s with
    | nil => rfl
    | cons c t =>
      have ht := (noTriple_cons c t hs).2
      simp only [subFenceFuel, matchFenceAt_none_of_noTriple (c :: t) hs]
      rw [ih t ht]

theorem subFenceFuel_nil (n : Nat) : subFenceFuel n [] = [] := by
  cases n <;> rfl

theorem subFenceFuel_succ (n : Nat) (s : List Char) :
    subFenceFuel (n + 1) s =
      match matchFenceAt s with
      | some (b, r) => b ++ subFenceFuel n r
      | none =>
        match s with
        | [] => []
        | c :: t => c :: subFenceFuel n t := rfl

theorem strip_canonical (b : List Char) (hb : noTriple b = true) :
    stripFenceL (fenceWrap b) = b := by
  have hlen : (fenceWrap b).length = (b.length + 11) + 1 := by
    simp [fenceWrap, fenceHead, bt3]
  rw [stripFenceL, hlen, subFenceFuel_succ, matchFenceAt_canonical b hb]
  show b ++ subFenceFuel (b.length + 11) [] = b
  rw [subFenceFuel_nil]
  simp

/-- C5 (amended): fence-stripping is not idempotent on all strings (see
the counterexample), but on canonically fenced payloads it is: for any
body containing no triple backtick, one strip of
`fence head + newline + body + newline + closing fence` yields the body,
and a second strip leaves it unchanged. -/
theorem c5_amended :
    ∀ b : List Char, noTriple b = true →
      stripFenceL (fenceWrap b) = b ∧
      stripFenceL (stripFenceL (fenceWrap b)) = stripFenceL (fenceWrap b) := by
  intro b hb
  have h1 := strip_canonical b hb
  have h2 : stripFenceL b = b := by
    rw [stripFenceL]
    exact subFenceFuel_id b.length b hb
  exact ⟨h1, by rw [h1, h2]⟩

/-- C5 witness: the amended theorem at a concrete JSON body. -/
theorem c5_amended_witness :
    noTriple ("\x7b\"a\": 1\x7d".toList) = true ∧
    stripFenceL (fenceWrap ("\x7b\"a\": 1\x7d".toList)) = "\x7b\"a\": 1\x7d".toList :=
  ⟨by decide, (c5_amended ("\x7b\"a\": 1\x7d".toList) (by decide)).1⟩
